import Mathlib

/-!
Verification of the sikka-api GPX/KML → GTFS conversion pipeline.

This file gives a shallow embedding of the three Python scripts
(`main.py`, `multiple_gpx.py`, `multiple_kml.py`) over exact rationals.
Coordinates are `(longitude, latitude)` pairs of rationals, as produced by
the geometry parsers.  The two external distance notions (geopy's geodesic
distance in meters and shapely's planar Euclidean distance) are modelled as
abstract rational-valued functions `geo` / `dist` passed as parameters;
the spatial proximity search of `KDTree.query_ball_point` is embedded
exactly by comparing squared planar distances with the squared radius,
which avoids irrational square roots.
-/

namespace Sikka

/-- A route point: `(longitude, latitude)` in decimal degrees. -/
abbrev Point : Type := ℚ × ℚ

/-- `geodesic_length` from `multiple_gpx.py` / `multiple_kml.py` / `main.py`:
sum of geodesic distances over consecutive points, for an abstract
distance function `geo`. -/
def geodesic_length (geo : Point → Point → ℚ) : List Point → ℚ
  | [] => 0
  | [_] => 0
  | p :: q :: rest => geo p q + geodesic_length geo (q :: rest)

/-- shapely's `LineString.length`: sum of planar distances over consecutive
points, for an abstract planar distance function `dist`. -/
def line_length (dist : Point → Point → ℚ) : List Point → ℚ
  | [] => 0
  | [_] => 0
  | p :: q :: rest => dist p q + line_length dist (q :: rest)

/-- Linear interpolation between two points: the point a fraction `t` of the
way from `a` to `b`. -/
def interp_seg (a b : Point) (t : ℚ) : Point :=
  (a.1 + t * (b.1 - a.1), a.2 + t * (b.2 - a.2))

/-- shapely's `LineString.interpolate`: walk a distance `d` along the
polyline and return the point there.  Distances beyond the end clamp to the
last point.  (On a zero-length segment `d / dist p q` is `d / 0 = 0` in `ℚ`,
returning the segment's first point, which agrees with shapely on the inputs
the scripts produce, where `d ≥ 0`.) -/
def interpolate (dist : Point → Point → ℚ) : List Point → ℚ → Point
  | [], _ => (0, 0)
  | [p], _ => p
  | p :: q :: rest, d =>
    if d ≤ dist p q then interp_seg p q (d / dist p q)
    else interpolate dist (q :: rest) (d - dist p q)

/-- `generate_stops_and_times` from `multiple_gpx.py` (identical in
`multiple_kml.py`): resample the route into evenly spaced stop coordinates.
`none` models the exceptions the Python code raises here: `LineString` on
fewer than 2 points, and the `ZeroDivisionError` of `total_meters // 0.0`
when the spacing is zero. -/
def generate_stops_and_times (geo dist : Point → Point → ℚ)
    (points : List Point) (stop_dist : ℚ) : Option (List Point) :=
  if points.length < 2 then none
  else if stop_dist = 0 then none
  else
    let total_meters := geodesic_length geo points
    let num_stops : ℕ := (max ⌊total_meters / stop_dist⌋ 1).toNat
    let dist_step := line_length dist points / (num_stops : ℚ)
    some ((List.range (num_stops + 1)).map fun i : ℕ =>
      interpolate dist points (dist_step * (i : ℚ)))

/-- The single-route resampling of `main.py` (lines 42–49): identical except
that `num_stops = int(total_meters // stop_dist)` is NOT clamped to at
least 1, so `dist_step = line.length / num_stops` raises
`ZeroDivisionError` (modelled as `none`) when the route is shorter than the
spacing. -/
def resample_single (geo dist : Point → Point → ℚ)
    (points : List Point) (stop_dist : ℚ) : Option (List Point) :=
  if points.length < 2 then none
  else if stop_dist = 0 then none
  else
    let num_stops : ℤ := ⌊geodesic_length geo points / stop_dist⌋
    if num_stops = 0 then none
    else
      let dist_step := line_length dist points / (num_stops : ℚ)
      some ((List.range (num_stops + 1).toNat).map fun i : ℕ =>
        interpolate dist points (dist_step * (i : ℚ)))

/-- The cumulative-sum loop inside `calculate_travel_times`: given the
running total `t`, emit the cumulative times of the remaining consecutive
stop pairs. -/
def cum_aux (geo : Point → Point → ℚ) (speed_ms : ℚ) (t : ℚ) :
    List Point → List ℚ
  | [] => []
  | [_] => []
  | p :: q :: rest =>
    let t2 := t + geo p q / speed_ms
    t2 :: cum_aux geo speed_ms t2 (q :: rest)

/-- `calculate_travel_times` from `multiple_gpx.py` / `multiple_kml.py`:
`times = [0]`, then for each consecutive pair append
`times[-1] + distance / speed_ms` with `speed_ms = speed_kmh * 1000 / 3600`.
There is no speed validation in the source; `none` models the
`ZeroDivisionError` raised on the first `distance / 0.0` when
`speed_kmh = 0` and the loop body runs at least once. -/
def calculate_travel_times (geo : Point → Point → ℚ)
    (stops_coords : List Point) (speed_kmh : ℚ) : Option (List ℚ) :=
  if 2 ≤ stops_coords.length ∧ speed_kmh = 0 then none
  else some (0 :: cum_aux geo (speed_kmh * 1000 / 3600) 0 stops_coords)

/-- Python's float modulo `x % y` (sign of the divisor): `x - y * ⌊x / y⌋`. -/
def pymod (x y : ℚ) : ℚ := x - y * ⌊x / y⌋

/-- Python's `f"{n:02d}"`: decimal rendering zero-padded to width 2. -/
def pad2 (n : ℤ) : String :=
  if 0 ≤ n ∧ n < 10 then "0" ++ toString n else toString n

/-- `seconds_to_gtfs_time` from `multiple_gpx.py` / `multiple_kml.py`:
`hours = int(seconds // 3600)`, `minutes = int((seconds % 3600) // 60)`,
`secs = int(seconds % 60)`, rendered `f"{hours:02d}:{minutes:02d}:{secs:02d}"`.
For the floor-divisions `int` is the identity; `seconds % 60` is
non-negative for every real input so its `int` truncation is also a floor. -/
def seconds_to_gtfs_time (seconds : ℚ) : String :=
  let hours : ℤ := ⌊seconds / 3600⌋
  let minutes : ℤ := ⌊pymod seconds 3600 / 60⌋
  let secs : ℤ := ⌊pymod seconds 60⌋
  pad2 hours ++ ":" ++ pad2 minutes ++ ":" ++ pad2 secs

/-- One row of `all_stops` in the multi-route scripts:
`{'stop_id': …, 'stop_name': f'Stop {stop_id}', 'stop_lat': …, 'stop_lon': …}`. -/
structure Stop where
  stop_id : ℕ
  stop_name : String
  stop_lat : ℚ
  stop_lon : ℚ
deriving DecidableEq

instance : Inhabited Stop := ⟨⟨0, "", 0, 0⟩⟩

/-- One entry of `routes_data`. -/
structure RouteData where
  route_id : ℕ
  route_name : String
  shape_id : ℕ
  stops : List ℕ
deriving DecidableEq

/-- One row of `all_shapes`. -/
structure ShapeRow where
  shape_id : ℕ
  shape_pt_lat : ℚ
  shape_pt_lon : ℚ
  shape_pt_sequence : ℕ
deriving DecidableEq

/-- One row of `all_stop_times`. -/
structure StopTimeRow where
  trip_id : ℕ
  arrival_time : String
  departure_time : String
  stop_id : ℕ
  stop_sequence : ℕ
deriving DecidableEq

/-- The run-scoped mutable globals of `multiple_gpx.py` / `multiple_kml.py`
(lines 105–111 resp. 163–169). -/
structure RunState where
  all_stops : List Stop
  stop_coords : List (ℚ × ℚ)
  stop_id_map : List ((ℚ × ℚ) × ℕ)
  stop_counter : ℕ
  routes_data : List RouteData
  all_shapes : List ShapeRow
  all_stop_times : List StopTimeRow
deriving DecidableEq

/-- The initial run state: empty aggregates, `stop_counter = 1`. -/
def initState : RunState := ⟨[], [], [], 1, [], [], []⟩

/-- Python's `round(x, 5)`: round to 5 decimal places.  (Ties are rounded
half-up here; CPython rounds ties to even, but on the rationals reachable
from the scripts' float inputs an exact tie never matters for the
registry's dedup behaviour, which is all the claims quantify over.) -/
def round5 (x : ℚ) : ℚ := (round (x * 100000) : ℚ) / 100000

/-- The registry key of line 128/193: `(round(coord[1], 5), round(coord[0], 5))`,
i.e. the `(latitude, longitude)` pair rounded to 5 decimals. -/
def stopKey (coord : Point) : ℚ × ℚ := (round5 coord.2, round5 coord.1)

/-- Lookup in the `stop_id_map` dict, modelled as an association list with
insertion at the tail. -/
def findKey (k : ℚ × ℚ) : List ((ℚ × ℚ) × ℕ) → Option ℕ
  | [] => none
  | kv :: rest => if k = kv.1 then some kv.2 else findKey k rest

/-- The interning step of lines 128–144 (`multiple_gpx.py`) / 193–209
(`multiple_kml.py`): look the rounded key up in `stop_id_map`; on a miss
allocate `stop_counter` as the new identity, bump the counter, record the
key, and append a `Stop` carrying the ORIGINAL (unrounded) coordinate to
`all_stops` and `stop_coords`; on a hit return the existing identity and
change nothing. -/
def internStop (coord : Point) (st : RunState) : ℕ × RunState :=
  match findKey (stopKey coord) st.stop_id_map with
  | none =>
    let stop_id := st.stop_counter
    (stop_id,
      { st with
        stop_counter := stop_id + 1
        stop_id_map := st.stop_id_map ++ [(stopKey coord, stop_id)]
        all_stops := st.all_stops ++
          [⟨stop_id, "Stop " ++ toString stop_id, coord.2, coord.1⟩]
        stop_coords := st.stop_coords ++ [(coord.2, coord.1)] })
  | some stop_id => (stop_id, st)

/-- The per-route interning loop (`for coord in interpolated_stops`):
returns the updated state, the route's stop-identity sequence
`route_stops`, and `route_stop_coords` (the original `(lon, lat)` pairs). -/
def internRoute (coords : List Point) (st : RunState) :
    RunState × List ℕ × List Point :=
  match coords with
  | [] => (st, [], [])
  | c :: rest =>
    let r1 := internStop c st
    let r2 := internRoute rest r1.2
    (r2.1, r1.1 :: r2.2.1, c :: r2.2.2)

/-- The stop-times generation loop: `base_start_time = 6 * 3600`, one row
per `(stop_id, travel_time)` pair with `departure_time = arrival_time` and
a 1-based `stop_sequence`. -/
def mkStopTimes (trip_id : ℕ) (route_stops : List ℕ) (travel_times : List ℚ) :
    List StopTimeRow :=
  (route_stops.zip travel_times).enum.map fun p =>
    let s := seconds_to_gtfs_time (6 * 3600 + p.2.2)
    ⟨trip_id, s, s, p.2.1, p.1 + 1⟩

/-- The shapes generation loop: one row per original point, 1-based. -/
def mkShapes (shape_id : ℕ) (points : List Point) : List ShapeRow :=
  points.enum.map fun p => ⟨shape_id, p.2.2, p.2.1, p.1 + 1⟩

/-- The run configuration: the two abstract distance functions and the
interactive inputs collected once per run. -/
structure Config where
  geo : Point → Point → ℚ
  dist : Point → Point → ℚ
  speed_kmh : ℚ
  stop_dist : ℚ
  frequency_headway : ℕ

/-- The body of the per-route `try:` block shared by both multi-route
scripts, starting at `generate_stops_and_times`.  The `Bool` is `true` when
an exception was raised (and caught at the per-route boundary).  Crucially,
when `calculate_travel_times` raises, the stops interned just before are
already committed to the returned state, exactly as in Python. -/
def routeBody (cfg : Config) (idx : ℕ) (route_name : String)
    (points : List Point) (st : RunState) : RunState × Bool :=
  match generate_stops_and_times cfg.geo cfg.dist points cfg.stop_dist with
  | none => (st, true)
  | some interpolated_stops =>
    let r := internRoute interpolated_stops st
    let st1 := r.1
    match calculate_travel_times cfg.geo r.2.2 cfg.speed_kmh with
    | none => (st1, true)
    | some travel_times =>
      ({ st1 with
          all_stop_times := st1.all_stop_times ++ mkStopTimes idx r.2.1 travel_times
          all_shapes := st1.all_shapes ++ mkShapes idx points
          routes_data := st1.routes_data ++ [⟨idx, route_name, idx, r.2.1⟩] },
        false)

/-- One iteration of the per-file loop of `multiple_gpx.py` (lines
113–181).  `parsed = none` models `process_gpx_file` raising (malformed
file), caught by the per-route `except` with the state untouched. -/
def processRouteGpx (cfg : Config) (idx : ℕ) (route_name : String)
    (parsed : Option (List Point)) (st : RunState) : RunState × Bool :=
  match parsed with
  | none => (st, true)
  | some points => routeBody cfg idx route_name points st

/-- One iteration of the per-file loop of `multiple_kml.py` (lines
171–246).  `process_kml_file` catches its own exceptions and returns `[]`,
and the loop `continue`s on an empty point list without treating it as an
error. -/
def processRouteKml (cfg : Config) (idx : ℕ) (route_name : String)
    (points : List Point) (st : RunState) : RunState × Bool :=
  match points with
  | [] => (st, false)
  | _ => routeBody cfg idx route_name points st

/-- The `for idx, gpx_filename in enumerate(gpx_files, start=1)` loop. -/
def runLoopGpx (cfg : Config) : ℕ → List (String × Option (List Point)) →
    RunState → RunState
  | _, [], st => st
  | idx, f :: rest, st =>
    runLoopGpx cfg (idx + 1) rest (processRouteGpx cfg idx f.1 f.2 st).1

/-- The `for idx, kml_filename in enumerate(kml_files, start=1)` loop. -/
def runLoopKml (cfg : Config) : ℕ → List (String × List Point) →
    RunState → RunState
  | _, [], st => st
  | idx, f :: rest, st =>
    runLoopKml cfg (idx + 1) rest (processRouteKml cfg idx f.1 f.2 st).1

/-- Squared planar distance between two `(lat, lon)` pairs. -/
def sqDist (a b : ℚ × ℚ) : ℚ := (a.1 - b.1) ^ 2 + (a.2 - b.2) ^ 2

/-- The squared `KDTree.query_ball_point` radius `r = 0.0003`. -/
def transferR2 : ℚ := (3 / 10000) ^ 2

/-- The pairs emitted while stop `i` is the query point: all indices `j`
within the fixed degree radius of `stop_coords[i]` with `i != j` and
`all_stops[i]['stop_id'] != all_stops[j]['stop_id']`. -/
def nearbyPairs (all_stops : List Stop) (coords : List (ℚ × ℚ))
    (i : ℕ) (ci : ℚ × ℚ) : List (ℕ × ℕ) :=
  coords.enum.filterMap fun jc =>
    if sqDist ci jc.2 ≤ transferR2 ∧ i ≠ jc.1 ∧
        (all_stops.getD i default).stop_id ≠ (all_stops.getD jc.1 default).stop_id
    then some ((all_stops.getD i default).stop_id,
               (all_stops.getD jc.1 default).stop_id)
    else none

/-- The `transfers` list of `multiple_gpx.py` lines 234–241 /
`multiple_kml.py` lines 303–310: guarded by `len(stop_coords) > 1`, then a
KDTree ball query around every registered stop coordinate. -/
def transfers (all_stops : List Stop) (coords : List (ℚ × ℚ)) :
    List (ℕ × ℕ) :=
  if 1 < coords.length then
    coords.enum.flatMap fun ic => nearbyPairs all_stops coords ic.1 ic.2
  else []

/-- The rows actually written to `transfers.txt`: `set(transfers)`,
modelled as first-occurrence deduplication of the ordered pairs. -/
def transferRows (all_stops : List Stop) (coords : List (ℚ × ℚ)) :
    List (ℕ × ℕ) :=
  (transfers all_stops coords).dedup

/-- The tabular content packed into `gtfs.zip` (the fields the claims are
about; the constant calendar/agency rows carry no route data). -/
structure Artifact where
  stops_rows : List Stop
  routes_rows : List (ℕ × String)
  trips_rows : List (ℕ × ℕ × ℕ)
  stop_times_rows : List StopTimeRow
  shapes_rows : List ShapeRow
  frequencies_rows : List (ℕ × ℕ)
  transfers_rows : List (ℕ × ℕ)
deriving DecidableEq

/-- The `write_csv` calls plus the zip step: fold the final run state into
the output tables. -/
def assembleArtifact (cfg : Config) (st : RunState) : Artifact :=
  { stops_rows := st.all_stops
    routes_rows := st.routes_data.map fun r => (r.route_id, r.route_name)
    trips_rows := st.routes_data.map fun r => (r.route_id, r.route_id, r.shape_id)
    stop_times_rows := st.all_stop_times
    shapes_rows := st.all_shapes
    frequencies_rows := st.routes_data.map fun r => (r.route_id, cfg.frequency_headway)
    transfers_rows := transferRows st.all_stops st.stop_coords }

/-- The whole `multiple_gpx.py` run after the per-file loop: there is no
guard on `routes_data`, so the feed archive is written unconditionally. -/
def runGpxFeed (cfg : Config) (files : List (String × Option (List Point))) :
    Option Artifact :=
  some (assembleArtifact cfg (runLoopGpx cfg 1 files initState))

/-- The whole `multiple_kml.py` run after the per-file loop: lines 248–250
exit with status 1 before anything is written when `routes_data` is empty. -/
def runKmlFeed (cfg : Config) (files : List (String × List Point)) :
    Option Artifact :=
  let st := runLoopKml cfg 1 files initState
  if st.routes_data.isEmpty then none else some (assembleArtifact cfg st)

/-! ### Example distance function for concrete instantiations

`dEx` is the squared planar Euclidean distance: an executable rational-valued
function that is non-negative and positive-definite, used to instantiate the
abstract `geo` / `dist` parameters at concrete inputs. -/

/-- Squared Euclidean distance on points, as a concrete stand-in for the
abstract distance parameters. -/
def dEx : Point → Point → ℚ := fun a b => (a.1 - b.1) ^ 2 + (a.2 - b.2) ^ 2

theorem dEx_nonneg (a b : Point) : 0 ≤ dEx a b := by
  unfold dEx; positivity

theorem dEx_eq_zero (a b : Point) (h : dEx a b = 0) : a = b := by
  unfold dEx at h
  have h1 : (a.1 - b.1) ^ 2 = 0 := by nlinarith [sq_nonneg (a.1 - b.1), sq_nonneg (a.2 - b.2)]
  have h2 : (a.2 - b.2) ^ 2 = 0 := by nlinarith [sq_nonneg (a.1 - b.1), sq_nonneg (a.2 - b.2)]
  have e1 : a.1 = b.1 := by nlinarith [h1]
  have e2 : a.2 = b.2 := by nlinarith [h2]
  exact Prod.ext e1 e2

/-! ### Properties of the resampling interpolation -/

theorem line_length_nonneg (dist : Point → Point → ℚ)
    (hd : ∀ a b, 0 ≤ dist a b) : ∀ pts : List Point, 0 ≤ line_length dist pts
  | [] => le_refl 0
  | [_] => le_refl 0
  | p :: q :: rest =>
    add_nonneg (hd p q) (line_length_nonneg dist hd (q :: rest))

theorem interp_seg_zero (a b : Point) : interp_seg a b 0 = a := by
  simp [interp_seg]

theorem interp_seg_one (a b : Point) : interp_seg a b 1 = b := by
  unfold interp_seg
  rw [Prod.ext_iff]
  constructor <;> dsimp only <;> ring

/-- A polyline of zero total planar length collapses: its last point equals
its first (needs positive-definiteness of the distance). -/
theorem line_length_zero_getLast (dist : Point → Point → ℚ)
    (hd : ∀ a b, 0 ≤ dist a b) (hpd : ∀ a b, dist a b = 0 → a = b) :
    ∀ (q : Point) (rest : List Point), line_length dist (q :: rest) = 0 →
      (q :: rest).getLast (List.cons_ne_nil q rest) = q := by
  intro q rest
  induction rest generalizing q with
  | nil => intro _; rfl
  | cons r rs ih =>
    intro h
    have e : dist q r + line_length dist (r :: rs) = 0 := h
    have hnn2 := line_length_nonneg dist hd (r :: rs)
    have h1 : dist q r = 0 := le_antisymm (by linarith) (hd q r)
    have h2 : line_length dist (r :: rs) = 0 := by linarith [hd q r]
    have hqr := hpd q r h1
    rw [List.getLast_cons (List.cons_ne_nil r rs), ih r h2, hqr]

/-- `interpolate` at distance 0 returns the first point. -/
theorem interpolate_zero (dist : Point → Point → ℚ)
    (hd : ∀ a b, 0 ≤ dist a b) (p q : Point) (rest : List Point) :
    interpolate dist (p :: q :: rest) 0 = p := by
  have h0 : (0 : ℚ) ≤ dist p q := hd p q
  simp [interpolate, h0, interp_seg_zero]

/-- `interpolate` at the full planar length returns the last point. -/
theorem interpolate_line_length (dist : Point → Point → ℚ)
    (hd : ∀ a b, 0 ≤ dist a b) (hpd : ∀ a b, dist a b = 0 → a = b) :
    ∀ (pts : List Point) (h : pts ≠ []),
      interpolate dist pts (line_length dist pts) = pts.getLast h := by
  intro pts
  induction pts with
  | nil => intro h; exact absurd rfl h
  | cons p tl ih =>
    intro _
    cases tl with
    | nil => rfl
    | cons q rest =>
      have hL : line_length dist (p :: q :: rest) =
          dist p q + line_length dist (q :: rest) := rfl
      have hR := line_length_nonneg dist hd (q :: rest)
      by_cases hR0 : line_length dist (q :: rest) = 0
      · have hle : line_length dist (p :: q :: rest) ≤ dist p q := by
          rw [hL, hR0, add_zero]
        have hq := line_length_zero_getLast dist hd hpd q rest hR0
        rw [List.getLast_cons (List.cons_ne_nil q rest), hq]
        by_cases hs : dist p q = 0
        · have h0 : line_length dist (p :: q :: rest) / dist p q = 0 := by
            rw [hs, div_zero]
          simp only [interpolate, if_pos hle, h0, interp_seg_zero]
          exact hpd p q hs
        · have hdiv : line_length dist (p :: q :: rest) / dist p q = 1 := by
            rw [hL, hR0, add_zero, div_self hs]
          simp only [interpolate, if_pos hle, hdiv, interp_seg_one]
      · have hRpos : 0 < line_length dist (q :: rest) := lt_of_le_of_ne hR (Ne.symm hR0)
        have hgt : ¬ line_length dist (p :: q :: rest) ≤ dist p q := by
          rw [hL]; linarith
        have hsub : line_length dist (p :: q :: rest) - dist p q =
            line_length dist (q :: rest) := by rw [hL]; ring
        simp only [interpolate, if_neg hgt, hsub]
        rw [ih (List.cons_ne_nil q rest),
          List.getLast_cons (List.cons_ne_nil q rest)]

/-- Claim C1 (amended, multi-route flows): for every route of at least two
points and positive spacing `S`, `generate_stops_and_times` succeeds and
yields `max(⌊L/S⌋, 1) + 1` stop coordinates whose first and last are the
route's first and last input points; in particular the zero-stop case is
avoided on routes shorter than the spacing.  The distance parameter is
assumed non-negative and positive-definite, as the Euclidean distance is. -/
theorem C1_resample_multi (geo dist : Point → Point → ℚ)
    (points : List Point) (S : ℚ) (h2 : 2 ≤ points.length) (hS : 0 < S)
    (hd : ∀ a b, 0 ≤ dist a b) (hpd : ∀ a b, dist a b = 0 → a = b) :
    ∃ l, generate_stops_and_times geo dist points S = some l ∧
      l.length = (max ⌊geodesic_length geo points / S⌋ 1).toNat + 1 ∧
      l.head? = points.head? ∧ l.getLast? = points.getLast? := by
  obtain ⟨p, q, rest, rfl⟩ : ∃ p q rest, points = p :: q :: rest := by
    match points, h2 with
    | p :: q :: rest, _ => exact ⟨p, q, rest, rfl⟩
  have hlen : ¬ (p :: q :: rest).length < 2 := by
    simp only [List.length_cons]; omega
  have hS0 : S ≠ 0 := ne_of_gt hS
  set n : ℕ := (max ⌊geodesic_length geo (p :: q :: rest) / S⌋ 1).toNat with hn
  have hn1 : 1 ≤ n := by
    have h1 : (1 : ℤ) ≤ max ⌊geodesic_length geo (p :: q :: rest) / S⌋ 1 :=
      le_max_right _ 1
    omega
  have hnQ : (n : ℚ) ≠ 0 := by
    have hpos : 0 < n := by omega
    exact_mod_cast hpos.ne'
  have hgen : generate_stops_and_times geo dist (p :: q :: rest) S =
      some ((List.range (n + 1)).map fun i : ℕ =>
        interpolate dist (p :: q :: rest)
          (line_length dist (p :: q :: rest) / (n : ℚ) * (i : ℚ))) := by
    simp only [generate_stops_and_times, if_neg hlen, if_neg hS0, ← hn]
  refine ⟨_, hgen, ?_, ?_, ?_⟩
  · simp [List.length_map, List.length_range]
  · rw [List.range_succ_eq_map, List.map_cons]
    simp only [List.head?_cons, Nat.cast_zero, mul_zero]
    rw [interpolate_zero dist hd]
  · rw [List.range_succ, List.map_append, List.map_cons, List.map_nil]
    rw [List.getLast?_concat]
    have hstep : line_length dist (p :: q :: rest) / (n : ℚ) * (n : ℚ) =
        line_length dist (p :: q :: rest) := div_mul_cancel₀ _ hnQ
    rw [hstep, interpolate_line_length dist hd hpd _ (List.cons_ne_nil p (q :: rest)),
      List.getLast?_eq_getLast _ (List.cons_ne_nil p (q :: rest))]

/-- Claim C1, counterexample: the claim asserts that `resample` always
determines `max(⌊L/S⌋, 1)` stops, avoiding the zero-stop case on routes
shorter than the spacing.  The single-route flow of `main.py` (lines 42–49)
omits the `max(…, 1)` clamp: on this route of geodesic length 1 with
spacing 2 it computes `num_stops = 0` and raises `ZeroDivisionError` at
`line.length / num_stops`, yielding no stop coordinates at all instead of
the claimed `max(⌊L/S⌋,1) + 1 = 2`. -/
theorem C1_counterexample :
    resample_single dEx dEx [(0, 0), (0, 1)] 2 = none := by
  norm_num [resample_single, geodesic_length, dEx]

/-- Claim C1, witness for the amended theorem at a concrete route. -/
theorem C1_witness :
    2 ≤ ([(0, 0), (0, 1)] : List Point).length ∧ (0 : ℚ) < 1 / 2 ∧
    ∃ l, generate_stops_and_times dEx dEx [(0, 0), (0, 1)] (1 / 2) = some l ∧
      l.length = (max ⌊geodesic_length dEx [(0, 0), (0, 1)] / (1 / 2)⌋ 1).toNat + 1 ∧
      l.head? = ([(0, 0), (0, 1)] : List Point).head? ∧
      l.getLast? = ([(0, 0), (0, 1)] : List Point).getLast? :=
  ⟨by norm_num, by norm_num,
    C1_resample_multi dEx dEx [(0, 0), (0, 1)] (1 / 2) (by norm_num) (by norm_num)
      dEx_nonneg dEx_eq_zero⟩

/-! ### Properties of the cumulative travel-time computation -/

theorem cum_aux_length (geo : Point → Point → ℚ) (sm : ℚ) :
    ∀ (l : List Point) (p : Point) (t : ℚ),
      (cum_aux geo sm t (p :: l)).length = l.length := by
  intro l
  induction l with
  | nil => intro p t; rfl
  | cons q rs ih => intro p t; simp only [cum_aux, List.length_cons, ih q]

/-- When every increment `geo a b / sm` is non-negative, the cumulative
list starting from `t` is a non-decreasing chain bounded below by `t`. -/
theorem cum_aux_chain_le (geo : Point → Point → ℚ) (sm : ℚ)
    (h : ∀ a b, 0 ≤ geo a b / sm) :
    ∀ (l : List Point) (p : Point) (t : ℚ),
      List.Chain' (· ≤ ·) (t :: cum_aux geo sm t (p :: l)) ∧
      ∀ x ∈ cum_aux geo sm t (p :: l), t ≤ x := by
  intro l
  induction l with
  | nil =>
    intro p t
    exact ⟨by simp [cum_aux], by simp [cum_aux]⟩
  | cons q rs ih =>
    intro p t
    have hstep : t ≤ t + geo p q / sm := le_add_of_nonneg_right (h p q)
    obtain ⟨ihc, ihm⟩ := ih q (t + geo p q / sm)
    refine ⟨List.chain'_cons.mpr ⟨hstep, ihc⟩, ?_⟩
    intro x hx
    rcases List.mem_cons.mp hx with h1 | h1
    · exact h1 ▸ hstep
    · exact le_trans hstep (ihm x h1)

/-- When every increment `geo a b / sm` is non-positive (negative speed),
the cumulative list is a non-increasing chain. -/
theorem cum_aux_chain_ge (geo : Point → Point → ℚ) (sm : ℚ)
    (h : ∀ a b, geo a b / sm ≤ 0) :
    ∀ (l : List Point) (p : Point) (t : ℚ),
      List.Chain' (· ≥ ·) (t :: cum_aux geo sm t (p :: l)) := by
  intro l
  induction l with
  | nil => intro p t; simp [cum_aux]
  | cons q rs ih =>
    intro p t
    have hstep : t + geo p q / sm ≤ t := by linarith [h p q]
    exact List.chain'_cons.mpr ⟨hstep, ih q (t + geo p q / sm)⟩

/-- Claim C5: for every non-empty stop sequence and positive speed,
`calculate_travel_times` succeeds and returns a list of the same length as
the input whose first element is exactly 0, all of whose elements are
non-negative, and which is monotonically non-decreasing.  The geodesic
distance parameter is assumed non-negative, as real geodesic distances are. -/
theorem C5_cumulative_times (geo : Point → Point → ℚ)
    (stops_coords : List Point) (speed_kmh : ℚ)
    (hne : stops_coords ≠ []) (hsp : 0 < speed_kmh)
    (hnn : ∀ a b, 0 ≤ geo a b) :
    ∃ ts, calculate_travel_times geo stops_coords speed_kmh = some ts ∧
      ts.length = stops_coords.length ∧ ts.head? = some 0 ∧
      (∀ x ∈ ts, 0 ≤ x) ∧ List.Chain' (· ≤ ·) ts := by
  have hs0 : speed_kmh ≠ 0 := ne_of_gt hsp
  have hguard : ¬ (2 ≤ stops_coords.length ∧ speed_kmh = 0) := fun hc => hs0 hc.2
  obtain ⟨p, l, rfl⟩ : ∃ p l, stops_coords = p :: l := by
    cases stops_coords with
    | nil => exact absurd rfl hne
    | cons p l => exact ⟨p, l, rfl⟩
  have hsm : ∀ a b, 0 ≤ geo a b / (speed_kmh * 1000 / 3600) := by
    intro a b
    have hpos : 0 < speed_kmh * 1000 / 3600 := by positivity
    exact div_nonneg (hnn a b) hpos.le
  refine ⟨0 :: cum_aux geo (speed_kmh * 1000 / 3600) 0 (p :: l), ?_, ?_, rfl, ?_, ?_⟩
  · simp only [calculate_travel_times, if_neg hguard]
  · simp [List.length_cons, cum_aux_length]
  · intro x hx
    rcases List.mem_cons.mp hx with h1 | h1
    · exact h1.symm.le
    · exact (cum_aux_chain_le geo _ hsm l p 0).2 x h1
  · exact (cum_aux_chain_le geo _ hsm l p 0).1

/-- Claim C5, witness at a concrete stop sequence and speed. -/
theorem C5_witness :
    ([(0, 0), (0, 1)] : List Point) ≠ [] ∧ (0 : ℚ) < 30 ∧
    ∃ ts, calculate_travel_times dEx [(0, 0), (0, 1)] 30 = some ts ∧
      ts.length = ([(0, 0), (0, 1)] : List Point).length ∧ ts.head? = some 0 ∧
      (∀ x ∈ ts, 0 ≤ x) ∧ List.Chain' (· ≤ ·) ts :=
  ⟨by simp, by norm_num,
    C5_cumulative_times dEx [(0, 0), (0, 1)] 30 (by simp) (by norm_num) dEx_nonneg⟩

/-- Claim C7, counterexample: the claim says the travel-time computation
fails with `InvalidSpeed` whenever the supplied speed is ≤ 0.  The code has
no speed validation: with speed `-1` (≤ 0) it SUCCEEDS, returning the
nonsensical cumulative times `[0, -18/5]` instead of failing. -/
theorem C7_counterexample :
    calculate_travel_times dEx [(0, 0), (0, 1)] (-1) = some [0, -18 / 5] := by
  norm_num [calculate_travel_times, cum_aux, dEx]

/-- Claim C7 (amended): `calculate_travel_times` performs no speed
validation and raises no `InvalidSpeed` error.  Its only failure is the
`ZeroDivisionError` hit exactly when the speed is 0 and there are at least
two stops; every negative speed succeeds, yielding a list that starts at 0
and is non-increasing. -/
theorem C7_no_speed_validation (geo : Point → Point → ℚ)
    (stops_coords : List Point) (speed_kmh : ℚ)
    (hnn : ∀ a b, 0 ≤ geo a b) (hneg : speed_kmh < 0) :
    (∀ s : ℚ, calculate_travel_times geo stops_coords s = none ↔
      2 ≤ stops_coords.length ∧ s = 0) ∧
    ∃ ts, calculate_travel_times geo stops_coords speed_kmh = some ts ∧
      ts.head? = some 0 ∧ List.Chain' (· ≥ ·) ts := by
  constructor
  · intro s
    by_cases hc : 2 ≤ stops_coords.length ∧ s = 0
    · simp [calculate_travel_times, hc]
    · simp [calculate_travel_times, hc]
  · have hs0 : speed_kmh ≠ 0 := ne_of_lt hneg
    have hguard : ¬ (2 ≤ stops_coords.length ∧ speed_kmh = 0) := fun hc => hs0 hc.2
    have hsm : ∀ a b, geo a b / (speed_kmh * 1000 / 3600) ≤ 0 := by
      intro a b
      have hneg2 : speed_kmh * 1000 / 3600 < 0 := by
        have : speed_kmh * 1000 < 0 := by nlinarith
        linarith
      exact div_nonpos_of_nonneg_of_nonpos (hnn a b) hneg2.le
    refine ⟨0 :: cum_aux geo (speed_kmh * 1000 / 3600) 0 stops_coords, ?_, rfl, ?_⟩
    · simp [calculate_travel_times, hguard]
    · cases stops_coords with
      | nil => simp [cum_aux]
      | cons p l => exact cum_aux_chain_ge geo _ hsm l p 0

/-- Claim C7, witness for the amended theorem at a concrete negative speed. -/
theorem C7_witness :
    (-1 : ℚ) < 0 ∧
    ∃ ts, calculate_travel_times dEx [(0, 0), (0, 1)] (-1) = some ts ∧
      ts.head? = some 0 ∧ List.Chain' (· ≥ ·) ts :=
  ⟨by norm_num,
    (C7_no_speed_validation dEx [(0, 0), (0, 1)] (-1) dEx_nonneg (by norm_num)).2⟩

/-! ### Properties of the GTFS time formatting -/

theorem pad2_length_nat : ∀ n : ℕ, n < 60 → (pad2 (n : ℤ)).length = 2 := by decide

theorem pad2_length_of_bounds (m : ℤ) (h0 : 0 ≤ m) (h60 : m < 60) :
    (pad2 m).length = 2 := by
  have hm : ((m.toNat : ℕ) : ℤ) = m := Int.toNat_of_nonneg h0
  rw [← hm]
  exact pad2_length_nat m.toNat (by omega)

/-- `seconds_to_gtfs_time` decomposes any non-negative second count into an
`H:M:S` rendering with `H = ⌊s/3600⌋` (unbounded, no modulo-24 wraparound),
minute and second fields in `[0, 60)` rendered as exactly two characters,
and `3600H + 60M + S = ⌊s⌋`. -/
theorem seconds_to_gtfs_time_decomp (s : ℚ) (hs : 0 ≤ s) :
    ∃ h m c : ℤ,
      seconds_to_gtfs_time s = pad2 h ++ ":" ++ pad2 m ++ ":" ++ pad2 c ∧
      h = ⌊s / 3600⌋ ∧ 0 ≤ h ∧ 0 ≤ m ∧ m < 60 ∧ 0 ≤ c ∧ c < 60 ∧
      (pad2 m).length = 2 ∧ (pad2 c).length = 2 ∧
      3600 * h + 60 * m + c = ⌊s⌋ := by
  have hfl : (⌊s / 3600⌋ : ℚ) ≤ s / 3600 := Int.floor_le _
  have hfl2 : s / 3600 < ⌊s / 3600⌋ + 1 := Int.lt_floor_add_one _
  have hfm : (⌊s / 60⌋ : ℚ) ≤ s / 60 := Int.floor_le _
  have hfm2 : s / 60 < ⌊s / 60⌋ + 1 := Int.lt_floor_add_one _
  have hfs : (⌊s⌋ : ℚ) ≤ s := Int.floor_le _
  have hfs2 : s < ⌊s⌋ + 1 := Int.lt_floor_add_one _
  have hm_eq : ⌊pymod s 3600 / 60⌋ = ⌊s / 60⌋ - 60 * ⌊s / 3600⌋ := by
    have e : pymod s 3600 / 60 = s / 60 - ((60 * ⌊s / 3600⌋ : ℤ) : ℚ) := by
      unfold pymod; push_cast; ring
    rw [e, Int.floor_sub_int]
  have hc_eq : ⌊pymod s 60⌋ = ⌊s⌋ - 60 * ⌊s / 60⌋ := by
    have e : pymod s 60 = s - ((60 * ⌊s / 60⌋ : ℤ) : ℚ) := by
      unfold pymod; push_cast; ring
    rw [e, Int.floor_sub_int]
  have hm0 : 0 ≤ ⌊s / 60⌋ - 60 * ⌊s / 3600⌋ := by
    have h1 : ((60 * ⌊s / 3600⌋ : ℤ) : ℚ) ≤ s / 60 := by push_cast; linarith
    have h2 : (60 * ⌊s / 3600⌋ : ℤ) ≤ ⌊s / 60⌋ := Int.le_floor.mpr h1
    omega
  have hm60 : ⌊s / 60⌋ - 60 * ⌊s / 3600⌋ < 60 := by
    have h1 : s / 60 < ((60 * ⌊s / 3600⌋ + 60 : ℤ) : ℚ) := by push_cast; linarith
    have h2 : ⌊s / 60⌋ < 60 * ⌊s / 3600⌋ + 60 := Int.floor_lt.mpr h1
    omega
  have hc0 : 0 ≤ ⌊s⌋ - 60 * ⌊s / 60⌋ := by
    have h1 : ((60 * ⌊s / 60⌋ : ℤ) : ℚ) ≤ s := by push_cast; linarith
    have h2 : (60 * ⌊s / 60⌋ : ℤ) ≤ ⌊s⌋ := Int.le_floor.mpr h1
    omega
  have hc60 : ⌊s⌋ - 60 * ⌊s / 60⌋ < 60 := by
    have h1 : s < ((60 * ⌊s / 60⌋ + 60 : ℤ) : ℚ) := by push_cast; linarith
    have h2 : ⌊s⌋ < 60 * ⌊s / 60⌋ + 60 := Int.floor_lt.mpr h1
    omega
  have hh0 : (0 : ℤ) ≤ ⌊s / 3600⌋ := Int.le_floor.mpr (by positivity)
  refine ⟨⌊s / 3600⌋, ⌊pymod s 3600 / 60⌋, ⌊pymod s 60⌋, rfl, rfl, hh0,
    ?_, ?_, ?_, ?_, ?_, ?_, ?_⟩
  · rw [hm_eq]; exact hm0
  · rw [hm_eq]; exact hm60
  · rw [hc_eq]; exact hc0
  · rw [hc_eq]; exact hc60
  · rw [hm_eq]; exact pad2_length_of_bounds _ hm0 hm60
  · rw [hc_eq]; exact pad2_length_of_bounds _ hc0 hc60
  · rw [hm_eq, hc_eq]; ring

/-- Claim C8: for every non-negative number `t` of seconds past the
start-of-service epoch of 06:00:00 (= 21600 s), the stop-times arrival
string renders as zero-padded `HH:MM:SS` with the hours field equal to the
true `⌊total/3600⌋` (no modulo-24 wraparound, so it may exceed 24), minute
and second fields in `[0, 60)` rendered as exactly two characters; and
every row built for the stop-times table has its departure string identical
to its arrival string. -/
theorem C8_stop_time_format (t : ℚ) (ht : 0 ≤ t) :
    (∃ h m c : ℤ,
      seconds_to_gtfs_time (6 * 3600 + t) = pad2 h ++ ":" ++ pad2 m ++ ":" ++ pad2 c ∧
      h = ⌊(6 * 3600 + t) / 3600⌋ ∧ 6 ≤ h ∧ 0 ≤ m ∧ m < 60 ∧ 0 ≤ c ∧ c < 60 ∧
      (pad2 m).length = 2 ∧ (pad2 c).length = 2 ∧
      3600 * h + 60 * m + c = ⌊6 * 3600 + t⌋) ∧
    ∀ (trip_id : ℕ) (ids : List ℕ) (ts : List ℚ) r,
      r ∈ mkStopTimes trip_id ids ts → r.departure_time = r.arrival_time := by
  constructor
  · obtain ⟨h, m, c, e1, e2, _, e4, e5, e6, e7, e8, e9, e10⟩ :=
      seconds_to_gtfs_time_decomp (6 * 3600 + t) (by linarith)
    have h6 : 6 ≤ h := by
      rw [e2]
      exact Int.le_floor.mpr (by push_cast; linarith)
    exact ⟨h, m, c, e1, e2, h6, e4, e5, e6, e7, e8, e9, e10⟩
  · intro trip_id ids ts r hr
    simp only [mkStopTimes, List.mem_map] at hr
    obtain ⟨p, _, rfl⟩ := hr
    rfl

/-- Claim C8, witness 25 hours past the epoch: the hours field is 31,
beyond any modulo-24 wraparound. -/
theorem C8_witness :
    (0 : ℚ) ≤ 90000 ∧
    ((∃ h m c : ℤ,
      seconds_to_gtfs_time (6 * 3600 + 90000) = pad2 h ++ ":" ++ pad2 m ++ ":" ++ pad2 c ∧
      h = ⌊((6 * 3600 + 90000 : ℚ)) / 3600⌋ ∧ 6 ≤ h ∧ 0 ≤ m ∧ m < 60 ∧ 0 ≤ c ∧ c < 60 ∧
      (pad2 m).length = 2 ∧ (pad2 c).length = 2 ∧
      3600 * h + 60 * m + c = ⌊(6 * 3600 + 90000 : ℚ)⌋) ∧
    ∀ (trip_id : ℕ) (ids : List ℕ) (ts : List ℚ) r,
      r ∈ mkStopTimes trip_id ids ts → r.departure_time = r.arrival_time) :=
  ⟨by norm_num, C8_stop_time_format 90000 (by norm_num)⟩

/-! ### Properties of the stop registry -/

/-- Well-formedness of the interning registry, established by `initState`
and preserved by `internStop`: the counter is at least 1, every identity in
the map lies in `[1, stop_counter)`, and both keys and identities are
pairwise distinct. -/
def RegWF (st : RunState) : Prop :=
  1 ≤ st.stop_counter ∧
  (∀ kv ∈ st.stop_id_map, 1 ≤ kv.2 ∧ kv.2 < st.stop_counter) ∧
  (st.stop_id_map.map Prod.fst).Nodup ∧
  (st.stop_id_map.map Prod.snd).Nodup

theorem RegWF_initState : RegWF initState := by
  refine ⟨le_refl 1, ?_, ?_, ?_⟩ <;> simp [initState]

theorem findKey_eq_none (k : ℚ × ℚ) :
    ∀ l : List ((ℚ × ℚ) × ℕ), findKey k l = none ↔ k ∉ l.map Prod.fst := by
  intro l
  induction l with
  | nil => simp [findKey]
  | cons kv rest ih =>
    by_cases hk : k = kv.1
    · simp [findKey, hk]
    · simp [findKey, hk, ih]

theorem findKey_mem (k : ℚ × ℚ) (v : ℕ) :
    ∀ l : List ((ℚ × ℚ) × ℕ), findKey k l = some v → (k, v) ∈ l := by
  intro l
  induction l with
  | nil => intro h; simp [findKey] at h
  | cons kv rest ih =>
    intro h
    by_cases hk : k = kv.1
    · simp only [findKey, if_pos hk, Option.some.injEq] at h
      have : kv = (k, v) := Prod.ext hk.symm h
      rw [← this]
      exact List.mem_cons_self kv rest
    · simp only [findKey, if_neg hk] at h
      exact List.mem_cons_of_mem kv (ih h)

theorem findKey_append_left (k : ℚ × ℚ) (v : ℕ) :
    ∀ l1 l2 : List ((ℚ × ℚ) × ℕ), findKey k l1 = some v →
      findKey k (l1 ++ l2) = some v := by
  intro l1 l2
  induction l1 with
  | nil => intro h; simp [findKey] at h
  | cons kv rest ih =>
    intro h
    by_cases hk : k = kv.1
    · simp only [findKey, if_pos hk, Option.some.injEq] at h
      simp [findKey, hk, h]
    · simp only [findKey, if_neg hk] at h ⊢
      exact ih h

theorem findKey_append_of_none (k : ℚ × ℚ) :
    ∀ l1 l2 : List ((ℚ × ℚ) × ℕ), findKey k l1 = none →
      findKey k (l1 ++ l2) = findKey k l2 := by
  intro l1 l2
  induction l1 with
  | nil => intro _; rfl
  | cons kv rest ih =>
    intro h
    by_cases hk : k = kv.1
    · simp [findKey, hk] at h
    · simp only [findKey, if_neg hk] at h ⊢
      exact ih h

/-- If the identities in an association list are pairwise distinct, two
entries sharing an identity share the key. -/
theorem nodup_snd_key_eq :
    ∀ l : List ((ℚ × ℚ) × ℕ), (l.map Prod.snd).Nodup →
      ∀ (k1 k2 : ℚ × ℚ) (v : ℕ), (k1, v) ∈ l → (k2, v) ∈ l → k1 = k2 := by
  intro l
  induction l with
  | nil => intro _ k1 k2 v h; simp at h
  | cons kv rest ih =>
    intro hnd k1 k2 v h1 h2
    simp only [List.map_cons, List.nodup_cons] at hnd
    obtain ⟨hvn, hnd2⟩ := hnd
    rcases List.mem_cons.mp h1 with e1 | m1
    · rcases List.mem_cons.mp h2 with e2 | m2
      · rw [← e1] at e2
        exact (Prod.ext_iff.mp e2).1.symm
      · exfalso
        apply hvn
        rw [← e1]
        show v ∈ rest.map Prod.snd
        exact List.mem_map_of_mem Prod.snd m2
    · rcases List.mem_cons.mp h2 with e2 | m2
      · exfalso
        apply hvn
        rw [← e2]
        show v ∈ rest.map Prod.snd
        exact List.mem_map_of_mem Prod.snd m1
      · exact ih hnd2 k1 k2 v m1 m2

/-- Fresh-key unfolding of `internStop`. -/
theorem internStop_fresh (c : Point) (st : RunState)
    (h : findKey (stopKey c) st.stop_id_map = none) :
    internStop c st = (st.stop_counter,
      { st with
        stop_counter := st.stop_counter + 1
        stop_id_map := st.stop_id_map ++ [(stopKey c, st.stop_counter)]
        all_stops := st.all_stops ++
          [⟨st.stop_counter, "Stop " ++ toString st.stop_counter, c.2, c.1⟩]
        stop_coords := st.stop_coords ++ [(c.2, c.1)] }) := by
  simp only [internStop, h]

/-- Existing-key unfolding of `internStop`. -/
theorem internStop_hit (c : Point) (st : RunState) (i : ℕ)
    (h : findKey (stopKey c) st.stop_id_map = some i) :
    internStop c st = (i, st) := by
  simp only [internStop, h]

theorem RegWF_internStop (c : Point) (st : RunState) (hwf : RegWF st) :
    RegWF (internStop c st).2 ∧ 1 ≤ (internStop c st).1 ∧
      (internStop c st).1 < (internStop c st).2.stop_counter := by
  obtain ⟨h1, h2, h3, h4⟩ := hwf
  cases hfk : findKey (stopKey c) st.stop_id_map with
  | none =>
    rw [internStop_fresh c st hfk]
    refine ⟨⟨by dsimp only; omega, ?_, ?_, ?_⟩, by dsimp only; omega, by dsimp only; omega⟩
    · intro kv hkv
      dsimp only at hkv ⊢
      rcases List.mem_append.mp hkv with hm | hm
      · have := h2 kv hm; omega
      · simp only [List.mem_singleton] at hm
        rw [hm]
        dsimp only
        omega
    · dsimp only
      rw [List.map_append, List.nodup_append]
      refine ⟨h3, by simp, ?_⟩
      intro x hx hx2
      simp only [List.map_cons, List.map_nil, List.mem_singleton] at hx2
      rw [hx2] at hx
      exact (findKey_eq_none _ _).mp hfk hx
    · dsimp only
      rw [List.map_append, List.nodup_append]
      refine ⟨h4, by simp, ?_⟩
      intro x hx hx2
      simp only [List.map_cons, List.map_nil, List.mem_singleton] at hx2
      obtain ⟨kv, hkv, hkv2⟩ := List.mem_map.mp hx
      have := h2 kv hkv
      omega
  | some i =>
    rw [internStop_hit c st i hfk]
    have hb := h2 _ (findKey_mem _ _ _ hfk)
    exact ⟨⟨h1, h2, h3, h4⟩, by dsimp only; omega, by dsimp only; omega⟩

theorem internStop_idem (c : Point) (st : RunState) :
    internStop c ((internStop c st).2) = ((internStop c st).1, (internStop c st).2) := by
  cases hfk : findKey (stopKey c) st.stop_id_map with
  | none =>
    rw [internStop_fresh c st hfk]
    have hfind : findKey (stopKey c)
        (st.stop_id_map ++ [(stopKey c, st.stop_counter)]) = some st.stop_counter := by
      rw [findKey_append_of_none _ _ _ hfk]
      simp [findKey]
    exact internStop_hit _ _ _ hfind
  | some i =>
    rw [internStop_hit c st i hfk]
    exact internStop_hit c st i hfk

theorem internStop_distinct_keys (c c' : Point) (st : RunState) (hwf : RegWF st)
    (hne : stopKey c ≠ stopKey c') :
    (internStop c' ((internStop c st).2)).1 ≠ (internStop c st).1 := by
  obtain ⟨h1, h2, h3, h4⟩ := hwf
  cases hfk : findKey (stopKey c) st.stop_id_map with
  | none =>
    rw [internStop_fresh c st hfk]
    dsimp only
    cases hfk2 : findKey (stopKey c') st.stop_id_map with
    | none =>
      have hfind : findKey (stopKey c')
          (st.stop_id_map ++ [(stopKey c, st.stop_counter)]) = none := by
        rw [findKey_append_of_none _ _ _ hfk2]
        simp [findKey, Ne.symm hne]
      rw [internStop_fresh c' _ hfind]
      dsimp only
      omega
    | some v =>
      have hfind : findKey (stopKey c')
          (st.stop_id_map ++ [(stopKey c, st.stop_counter)]) = some v :=
        findKey_append_left _ _ _ _ hfk2
      rw [internStop_hit c' _ v hfind]
      have hv := h2 _ (findKey_mem _ _ _ hfk2)
      dsimp only at hv ⊢
      omega
  | some i =>
    rw [internStop_hit c st i hfk]
    dsimp only
    cases hfk2 : findKey (stopKey c') st.stop_id_map with
    | none =>
      rw [internStop_fresh c' st hfk2]
      have hi := h2 _ (findKey_mem _ _ _ hfk)
      dsimp only at hi ⊢
      omega
    | some v =>
      rw [internStop_hit c' st v hfk2]
      dsimp only
      intro hiv
      apply hne
      exact nodup_snd_key_eq st.stop_id_map h4 (stopKey c) (stopKey c') i
        (findKey_mem _ _ _ hfk) (hiv ▸ findKey_mem _ _ _ hfk2)

/-- Claim C6: stop interning is idempotent and allocates identities
monotonically from 1.  For a well-formed registry state: a coordinate with
a fresh rounded key is allocated the current counter value as identity,
the counter is bumped, and the ORIGINAL (unrounded) coordinate is appended
to the stops list; a coordinate whose rounded key already exists returns
the existing identity with the whole state unchanged (no new stop, nothing
overwritten — first-seen coordinate wins); interning is idempotent;
coordinates with distinct rounded keys receive distinct identities; the
returned identity is at least 1 and below the new counter, and
well-formedness is preserved. -/
theorem C6_intern_registry (st : RunState) (c c' : Point) (hwf : RegWF st) :
    (findKey (stopKey c) st.stop_id_map = none →
      (internStop c st).1 = st.stop_counter ∧
      (internStop c st).2.stop_counter = st.stop_counter + 1 ∧
      (internStop c st).2.all_stops = st.all_stops ++
        [⟨st.stop_counter, "Stop " ++ toString st.stop_counter, c.2, c.1⟩] ∧
      (internStop c st).2.stop_id_map =
        st.stop_id_map ++ [(stopKey c, st.stop_counter)]) ∧
    (∀ i, findKey (stopKey c) st.stop_id_map = some i → internStop c st = (i, st)) ∧
    internStop c ((internStop c st).2) = ((internStop c st).1, (internStop c st).2) ∧
    (stopKey c ≠ stopKey c' →
      (internStop c' ((internStop c st).2)).1 ≠ (internStop c st).1) ∧
    (1 ≤ (internStop c st).1 ∧
      (internStop c st).1 < (internStop c st).2.stop_counter ∧
      RegWF (internStop c st).2) := by
  refine ⟨?_, ?_, internStop_idem c st, internStop_distinct_keys c c' st hwf, ?_⟩
  · intro hfk
    rw [internStop_fresh c st hfk]
    exact ⟨rfl, rfl, rfl, rfl⟩
  · intro i hfk
    exact internStop_hit c st i hfk
  · obtain ⟨hw, hb1, hb2⟩ := RegWF_internStop c st hwf
    exact ⟨hb1, hb2, hw⟩

/-- Claim C6, witness: interning into the initial (well-formed, empty)
registry allocates identity 1 and preserves well-formedness. -/
theorem C6_witness :
    RegWF initState ∧
    (1 ≤ (internStop (1 / 10, 2 / 10) initState).1 ∧
      (internStop (1 / 10, 2 / 10) initState).1 <
        (internStop (1 / 10, 2 / 10) initState).2.stop_counter ∧
      RegWF (internStop (1 / 10, 2 / 10) initState).2) :=
  ⟨RegWF_initState,
    (C6_intern_registry initState (1 / 10, 2 / 10) (3, 4) RegWF_initState).2.2.2.2⟩

/-! ### Properties of the transfer computation -/

theorem sqDist_comm (a b : ℚ × ℚ) : sqDist a b = sqDist b a := by
  unfold sqDist; ring

/-- Two registered stops 0.0002 degrees apart — distinct rounded keys,
hence distinct identities 1 and 2, but within the 0.0003-degree transfer
radius. -/
def stopsEx : List Stop := [⟨1, "Stop 1", 0, 0⟩, ⟨2, "Stop 2", 2 / 10000, 0⟩]

def coordsEx : List (ℚ × ℚ) := [(0, 0), (2 / 10000, 0)]

theorem transferRows_ex_eq : transferRows stopsEx coordsEx = [(1, 2), (2, 1)] := by
  norm_num [transferRows, transfers, nearbyPairs, stopsEx, coordsEx, sqDist,
    transferR2, List.enum, List.enumFrom, List.filterMap, List.flatMap, List.dedup]

/-- Claim C2, counterexample: the claim says each unordered pair of
colliding stops appears at most once in the final result.  With the two
colliding stops 1 and 2, `set(transfers)` deduplicates ORDERED pairs only:
the written rows are exactly `[(1, 2), (2, 1)]`, so the single unordered
pair {1, 2} appears twice, once per orientation. -/
theorem C2_counterexample : transferRows stopsEx coordsEx = [(1, 2), (2, 1)] :=
  transferRows_ex_eq

/-- Claim C2 (amended): the transfer rows never contain a self-pair (two
equal stop identities), and each ORDERED pair appears at most once; but an
unordered pair of colliding stops generally appears in both orientations,
since only the ordered-pair set is deduplicated. -/
theorem C2_transfer_rows (all_stops : List Stop) (coords : List (ℚ × ℚ)) :
    (∀ a : ℕ, (a, a) ∉ transferRows all_stops coords) ∧
    (transferRows all_stops coords).Nodup := by
  constructor
  · intro a ha
    rw [transferRows, List.mem_dedup] at ha
    unfold transfers at ha
    by_cases hlen : 1 < coords.length
    · rw [if_pos hlen] at ha
      obtain ⟨ic, hic, hmem⟩ := List.mem_flatMap.mp ha
      unfold nearbyPairs at hmem
      obtain ⟨jc, hjc, hsome⟩ := List.mem_filterMap.mp hmem
      by_cases hcond : sqDist ic.2 jc.2 ≤ transferR2 ∧ ic.1 ≠ jc.1 ∧
          (all_stops.getD ic.1 default).stop_id ≠ (all_stops.getD jc.1 default).stop_id
      · rw [if_pos hcond] at hsome
        obtain ⟨e1, e2⟩ := Prod.ext_iff.mp (Option.some.inj hsome)
        exact hcond.2.2 (e1.trans e2.symm)
      · rw [if_neg hcond] at hsome
        exact Option.noConfusion hsome
    · rw [if_neg hlen] at ha
      exact List.not_mem_nil _ ha
  · exact List.nodup_dedup _

/-- Claim C9: the final transfer rows are symmetric as a set of ordered
pairs: whenever `(a, b)` is emitted, so is `(b, a)`, because the
degree-radius neighbourhood relation is symmetric and every registered
stop is used as a query point. -/
theorem C9_transfer_symmetry (all_stops : List Stop) (coords : List (ℚ × ℚ))
    (p : ℕ × ℕ) (hp : p ∈ transferRows all_stops coords) :
    (p.2, p.1) ∈ transferRows all_stops coords := by
  rw [transferRows, List.mem_dedup] at hp ⊢
  unfold transfers at hp ⊢
  by_cases hlen : 1 < coords.length
  · rw [if_pos hlen] at hp ⊢
    obtain ⟨ic, hic, hmem⟩ := List.mem_flatMap.mp hp
    unfold nearbyPairs at hmem
    obtain ⟨jc, hjc, hsome⟩ := List.mem_filterMap.mp hmem
    by_cases hcond : sqDist ic.2 jc.2 ≤ transferR2 ∧ ic.1 ≠ jc.1 ∧
        (all_stops.getD ic.1 default).stop_id ≠ (all_stops.getD jc.1 default).stop_id
    · rw [if_pos hcond] at hsome
      obtain ⟨hd, hij, hid⟩ := hcond
      have hpe := Option.some.inj hsome
      apply List.mem_flatMap.mpr
      refine ⟨jc, hjc, ?_⟩
      unfold nearbyPairs
      apply List.mem_filterMap.mpr
      refine ⟨ic, hic, ?_⟩
      rw [if_pos ⟨by rw [sqDist_comm]; exact hd, Ne.symm hij, Ne.symm hid⟩, ← hpe]
    · rw [if_neg hcond] at hsome
      exact Option.noConfusion hsome
  · rw [if_neg hlen] at hp
    exact absurd hp (List.not_mem_nil _)

/-- Claim C9, witness: from `(1, 2)` among the concrete transfer rows, the
symmetry theorem yields `(2, 1)`. -/
theorem C9_witness : (2, 1) ∈ transferRows stopsEx coordsEx :=
  C9_transfer_symmetry stopsEx coordsEx (1, 2)
    (by rw [transferRows_ex_eq]; exact List.mem_cons_self _ _)

/-! ### Properties of the per-route loop and the run as a whole -/

theorem internStop_preserves (c : Point) (st : RunState) :
    (internStop c st).2.routes_data = st.routes_data ∧
    (internStop c st).2.all_shapes = st.all_shapes ∧
    (internStop c st).2.all_stop_times = st.all_stop_times := by
  cases hfk : findKey (stopKey c) st.stop_id_map with
  | none => rw [internStop_fresh c st hfk]; exact ⟨rfl, rfl, rfl⟩
  | some i => rw [internStop_hit c st i hfk]; exact ⟨rfl, rfl, rfl⟩

theorem internRoute_preserves :
    ∀ (coords : List Point) (st : RunState),
      (internRoute coords st).1.routes_data = st.routes_data ∧
      (internRoute coords st).1.all_shapes = st.all_shapes ∧
      (internRoute coords st).1.all_stop_times = st.all_stop_times := by
  intro coords
  induction coords with
  | nil => intro st; exact ⟨rfl, rfl, rfl⟩
  | cons c rest ih =>
    intro st
    obtain ⟨s1, s2, s3⟩ := internStop_preserves c st
    obtain ⟨r1, r2, r3⟩ := ih (internStop c st).2
    exact ⟨r1.trans s1, r2.trans s2, r3.trans s3⟩

/-- The interning loop returns the interpolated coordinates unchanged as
`route_stop_coords`. -/
theorem internRoute_coords :
    ∀ (coords : List Point) (st : RunState), (internRoute coords st).2.2 = coords := by
  intro coords
  induction coords with
  | nil => intro st; rfl
  | cons c rest ih =>
    intro st
    show c :: (internRoute rest (internStop c st).2).2.2 = c :: rest
    rw [ih]

theorem generate_length_ge_two (geo dist : Point → Point → ℚ)
    (points : List Point) (S : ℚ) (l : List Point)
    (h : generate_stops_and_times geo dist points S = some l) : 2 ≤ l.length := by
  unfold generate_stops_and_times at h
  by_cases h2 : points.length < 2
  · rw [if_pos h2] at h; exact Option.noConfusion h
  · rw [if_neg h2] at h
    by_cases hS : S = 0
    · rw [if_pos hS] at h; exact Option.noConfusion h
    · rw [if_neg hS] at h
      have hl := Option.some.inj h
      have hn : (1 : ℤ) ≤ max ⌊geodesic_length geo points / S⌋ 1 := le_max_right _ 1
      rw [← hl]
      simp only [List.length_map, List.length_range]
      omega

theorem generate_eq_none_iff (geo dist : Point → Point → ℚ)
    (points : List Point) (S : ℚ) :
    generate_stops_and_times geo dist points S = none ↔
      points.length < 2 ∨ S = 0 := by
  unfold generate_stops_and_times
  by_cases h2 : points.length < 2
  · simp [h2]
  · by_cases hS : S = 0 <;> simp [h2, hS]

/-- Success predicate for one route in the multi-route flows, derived from
the failure points of the embedded per-route body: the route is committed
exactly when it has at least two points, the speed is non-zero, and the
spacing is non-zero. -/
def RouteSucceeds (cfg : Config) (points : List Point) : Prop :=
  2 ≤ points.length ∧ cfg.speed_kmh ≠ 0 ∧ cfg.stop_dist ≠ 0

instance (cfg : Config) (points : List Point) :
    Decidable (RouteSucceeds cfg points) := by
  unfold RouteSucceeds; infer_instance

/-- Unfolding of `routeBody` when resampling raises. -/
theorem routeBody_gen_none (cfg : Config) (idx : ℕ) (name : String)
    (points : List Point) (st : RunState)
    (h : generate_stops_and_times cfg.geo cfg.dist points cfg.stop_dist = none) :
    routeBody cfg idx name points st = (st, true) := by
  unfold routeBody
  rw [h]

/-- Unfolding of `routeBody` when the travel-time computation raises:
the stops interned just before remain committed. -/
theorem routeBody_ct_none (cfg : Config) (idx : ℕ) (name : String)
    (points : List Point) (st : RunState) (interp : List Point)
    (hgen : generate_stops_and_times cfg.geo cfg.dist points cfg.stop_dist = some interp)
    (hct : calculate_travel_times cfg.geo (internRoute interp st).2.2 cfg.speed_kmh = none) :
    routeBody cfg idx name points st = ((internRoute interp st).1, true) := by
  unfold routeBody
  simp only [hgen, hct]

/-- Unfolding of `routeBody` on success. -/
theorem routeBody_success (cfg : Config) (idx : ℕ) (name : String)
    (points : List Point) (st : RunState) (interp : List Point) (ts : List ℚ)
    (hgen : generate_stops_and_times cfg.geo cfg.dist points cfg.stop_dist = some interp)
    (hct : calculate_travel_times cfg.geo (internRoute interp st).2.2 cfg.speed_kmh = some ts) :
    routeBody cfg idx name points st =
      ({ (internRoute interp st).1 with
          all_stop_times := (internRoute interp st).1.all_stop_times ++
            mkStopTimes idx (internRoute interp st).2.1 ts
          all_shapes := (internRoute interp st).1.all_shapes ++ mkShapes idx points
          routes_data := (internRoute interp st).1.routes_data ++
            [⟨idx, name, idx, (internRoute interp st).2.1⟩] }, false) := by
  unfold routeBody
  simp only [hgen, hct]

/-- One step of the shared route body: the `(route_id, shape_id)` view of
`routes_data` gains `(idx, idx)` exactly on success, and an error leaves
`routes_data` untouched. -/
theorem routeBody_routes (cfg : Config) (idx : ℕ) (name : String)
    (points : List Point) (st : RunState) :
    ((routeBody cfg idx name points st).1.routes_data.map
        fun r => (r.route_id, r.shape_id)) =
      (st.routes_data.map fun r => (r.route_id, r.shape_id)) ++
        (if RouteSucceeds cfg points then [(idx, idx)] else []) := by
  cases hgen : generate_stops_and_times cfg.geo cfg.dist points cfg.stop_dist with
  | none =>
    have hng := (generate_eq_none_iff _ _ _ _).mp hgen
    have hns : ¬ RouteSucceeds cfg points := by
      rintro ⟨hl, _, hsd⟩
      rcases hng with h | h
      · omega
      · exact hsd h
    rw [routeBody_gen_none cfg idx name points st hgen, if_neg hns, List.append_nil]
  | some interp =>
    have h2 : ¬ (points.length < 2 ∨ cfg.stop_dist = 0) := by
      intro hc
      rw [(generate_eq_none_iff cfg.geo cfg.dist points cfg.stop_dist).mpr hc] at hgen
      exact Option.noConfusion hgen
    push_neg at h2
    have hil : 2 ≤ interp.length := generate_length_ge_two _ _ _ _ _ hgen
    have hcoords : (internRoute interp st).2.2 = interp := internRoute_coords interp st
    obtain ⟨p1, _, _⟩ := internRoute_preserves interp st
    cases hct : calculate_travel_times cfg.geo (internRoute interp st).2.2 cfg.speed_kmh with
    | none =>
      have hsp : cfg.speed_kmh = 0 := by
        unfold calculate_travel_times at hct
        by_cases hg : 2 ≤ (internRoute interp st).2.2.length ∧ cfg.speed_kmh = 0
        · exact hg.2
        · rw [if_neg hg] at hct; exact Option.noConfusion hct
      have hns : ¬ RouteSucceeds cfg points := fun hs => hs.2.1 hsp
      rw [routeBody_ct_none cfg idx name points st interp hgen hct, if_neg hns,
        List.append_nil]
      exact congrArg _ p1
    | some ts =>
      have hsp : cfg.speed_kmh ≠ 0 := by
        intro h0
        unfold calculate_travel_times at hct
        rw [if_pos ⟨by rw [hcoords]; exact hil, h0⟩] at hct
        exact Option.noConfusion hct
      have hys : RouteSucceeds cfg points := ⟨by omega, hsp, h2.2⟩
      rw [routeBody_success cfg idx name points st interp ts hgen hct, if_pos hys]
      show ((internRoute interp st).1.routes_data ++
        [({ route_id := idx, route_name := name, shape_id := idx,
            stops := (internRoute interp st).2.1 } : RouteData)]).map
          (fun r => (r.route_id, r.shape_id)) = _
      rw [List.map_append, p1]
      rfl

/-- The per-route view of `routes_data` for the GPX flavour, whose parse
step may raise (`parsed = none`). -/
theorem processRouteGpx_routes (cfg : Config) (idx : ℕ) (name : String)
    (parsed : Option (List Point)) (st : RunState) :
    ((processRouteGpx cfg idx name parsed st).1.routes_data.map
        fun r => (r.route_id, r.shape_id)) =
      (st.routes_data.map fun r => (r.route_id, r.shape_id)) ++
        (match parsed with
          | none => []
          | some points => if RouteSucceeds cfg points then [(idx, idx)] else []) := by
  cases parsed with
  | none => simp [processRouteGpx]
  | some points => exact routeBody_routes cfg idx name points st

/-- The per-route view of `routes_data` for the KML flavour, whose parse
step returns `[]` instead of raising. -/
theorem processRouteKml_routes (cfg : Config) (idx : ℕ) (name : String)
    (points : List Point) (st : RunState) :
    ((processRouteKml cfg idx name points st).1.routes_data.map
        fun r => (r.route_id, r.shape_id)) =
      (st.routes_data.map fun r => (r.route_id, r.shape_id)) ++
        (if RouteSucceeds cfg points then [(idx, idx)] else []) := by
  cases points with
  | nil =>
    have hns : ¬ RouteSucceeds cfg ([] : List Point) := by
      rintro ⟨hl, _, _⟩
      simp at hl
    simp [processRouteKml, hns]
  | cons p rest => exact routeBody_routes cfg idx name (p :: rest) st

/-- The `(route_id, shape_id)` pairs that the GPX loop starting at index
`k` commits: `(k + position, k + position)` for every successfully
processed file, skipped indices never reused. -/
def expectedIdsGpx (cfg : Config) :
    ℕ → List (String × Option (List Point)) → List (ℕ × ℕ)
  | _, [] => []
  | k, f :: rest =>
    (match f.2 with
      | none => []
      | some points => if RouteSucceeds cfg points then [(k, k)] else []) ++
      expectedIdsGpx cfg (k + 1) rest

/-- KML analogue of `expectedIdsGpx`. -/
def expectedIdsKml (cfg : Config) : ℕ → List (String × List Point) → List (ℕ × ℕ)
  | _, [] => []
  | k, f :: rest =>
    (if RouteSucceeds cfg f.2 then [(k, k)] else []) ++ expectedIdsKml cfg (k + 1) rest

theorem runLoopGpx_routes (cfg : Config) :
    ∀ (files : List (String × Option (List Point))) (k : ℕ) (st : RunState),
      ((runLoopGpx cfg k files st).routes_data.map fun r => (r.route_id, r.shape_id)) =
        (st.routes_data.map fun r => (r.route_id, r.shape_id)) ++
          expectedIdsGpx cfg k files := by
  intro files
  induction files with
  | nil => intro k st; simp [runLoopGpx, expectedIdsGpx]
  | cons f rest ih =>
    intro k st
    show ((runLoopGpx cfg (k + 1) rest (processRouteGpx cfg k f.1 f.2 st).1).routes_data.map
      fun r => (r.route_id, r.shape_id)) = _
    rw [ih (k + 1), processRouteGpx_routes, List.append_assoc]
    rfl

theorem runLoopKml_routes (cfg : Config) :
    ∀ (files : List (String × List Point)) (k : ℕ) (st : RunState),
      ((runLoopKml cfg k files st).routes_data.map fun r => (r.route_id, r.shape_id)) =
        (st.routes_data.map fun r => (r.route_id, r.shape_id)) ++
          expectedIdsKml cfg k files := by
  intro files
  induction files with
  | nil => intro k st; simp [runLoopKml, expectedIdsKml]
  | cons f rest ih =>
    intro k st
    show ((runLoopKml cfg (k + 1) rest (processRouteKml cfg k f.1 f.2 st).1).routes_data.map
      fun r => (r.route_id, r.shape_id)) = _
    rw [ih (k + 1), processRouteKml_routes, List.append_assoc]
    rfl

/-- Claim C10: in both multi-route flows, each committed route's identity
(and its equal shape identity) is the 1-based position of its source file
in the input listing, assigned by `enumerate(files, start=1)` before
processing; a failed file's index is simply skipped and never reused, so
the committed identities may be non-contiguous. -/
theorem C10_route_identities (cfg : Config)
    (gpx_files : List (String × Option (List Point)))
    (kml_files : List (String × List Point)) :
    ((runLoopGpx cfg 1 gpx_files initState).routes_data.map
        fun r => (r.route_id, r.shape_id)) = expectedIdsGpx cfg 1 gpx_files ∧
    ((runLoopKml cfg 1 kml_files initState).routes_data.map
        fun r => (r.route_id, r.shape_id)) = expectedIdsKml cfg 1 kml_files := by
  constructor
  · rw [runLoopGpx_routes]
    simp [initState]
  · rw [runLoopKml_routes]
    simp [initState]

theorem expectedIdsKml_nil (cfg : Config) :
    ∀ (files : List (String × List Point)) (k : ℕ),
      (∀ f ∈ files, ¬ RouteSucceeds cfg f.2) → expectedIdsKml cfg k files = [] := by
  intro files
  induction files with
  | nil => intro k _; rfl
  | cons f rest ih =>
    intro k hall
    show (if RouteSucceeds cfg f.2 then [(k, k)] else []) ++
      expectedIdsKml cfg (k + 1) rest = []
    rw [if_neg (hall f (List.mem_cons_self f rest)),
      ih (k + 1) fun g hg => hall g (List.mem_cons_of_mem f hg)]
    rfl

/-- Claim C3 (amended, KML flow): if no input route is processed
successfully, `multiple_kml.py` exits with a user-visible failure
(`sys.exit(1)`) before writing anything, producing no output artifact. -/
theorem C3_kml_zero_success (cfg : Config) (files : List (String × List Point))
    (hall : ∀ f ∈ files, ¬ RouteSucceeds cfg f.2) :
    runKmlFeed cfg files = none := by
  have hmap := runLoopKml_routes cfg files 1 initState
  rw [expectedIdsKml_nil cfg files 1 hall] at hmap
  simp only [initState, List.map_nil, List.nil_append, List.append_nil] at hmap
  have hroutes : (runLoopKml cfg 1 files initState).routes_data = [] :=
    List.map_eq_nil_iff.mp hmap
  simp [runKmlFeed, hroutes]

/-- A configuration with benign parameters (speed 30, spacing 1000). -/
def cfgEx : Config := ⟨dEx, dEx, 30, 1000, 600⟩

/-- Claim C3, witness: a KML run whose single file yields no points
produces no artifact. -/
theorem C3_witness :
    (∀ f ∈ ([("a", [])] : List (String × List Point)), ¬ RouteSucceeds cfgEx f.2) ∧
    runKmlFeed cfgEx [("a", [])] = none :=
  ⟨by intro f hf; simp only [List.mem_singleton] at hf; subst hf;
      rintro ⟨hl, _, _⟩; simp at hl,
    C3_kml_zero_success cfgEx [("a", [])]
      (by intro f hf; simp only [List.mem_singleton] at hf; subst hf;
          rintro ⟨hl, _, _⟩; simp at hl)⟩

/-- Claim C3, counterexample: the claim says every run with zero
successful routes terminates with a failure and produces no output
artifact.  `multiple_gpx.py` has no such guard: a run whose only file
fails to parse still writes the full `gtfs.zip` (with empty route data). -/
theorem C3_counterexample :
    (runLoopGpx cfgEx 1 [("a", none)] initState).routes_data = [] ∧
    runGpxFeed cfgEx [("a", none)] ≠ none := by
  constructor
  · simp [runLoopGpx, processRouteGpx, initState]
  · simp [runGpxFeed]

/-- Claim C4 (amended): an error while processing one route is caught at
the per-route boundary, and the failed route contributes nothing to
`routes_data`, `all_stop_times`, or `all_shapes`; moreover, if the error
was raised BEFORE the interning loop (parse failure or failed resampling),
the whole state — stop registry included — is unchanged.  (The registry
claim does not extend to later failures: see the counterexample, where a
route failing inside `calculate_travel_times` has already interned its
stops.) -/
theorem C4_route_failure_isolation (cfg : Config) (idx : ℕ) (name : String)
    (parsed : Option (List Point)) (st : RunState)
    (herr : (processRouteGpx cfg idx name parsed st).2 = true) :
    (processRouteGpx cfg idx name parsed st).1.routes_data = st.routes_data ∧
    (processRouteGpx cfg idx name parsed st).1.all_stop_times = st.all_stop_times ∧
    (processRouteGpx cfg idx name parsed st).1.all_shapes = st.all_shapes ∧
    ((parsed = none ∨ ∃ points, parsed = some points ∧
        generate_stops_and_times cfg.geo cfg.dist points cfg.stop_dist = none) →
      (processRouteGpx cfg idx name parsed st).1 = st) := by
  cases parsed with
  | none => exact ⟨rfl, rfl, rfl, fun _ => rfl⟩
  | some points =>
    replace herr : (routeBody cfg idx name points st).2 = true := herr
    show (routeBody cfg idx name points st).1.routes_data = st.routes_data ∧
      (routeBody cfg idx name points st).1.all_stop_times = st.all_stop_times ∧
      (routeBody cfg idx name points st).1.all_shapes = st.all_shapes ∧
      ((some points = none ∨ ∃ pts, some points = some pts ∧
          generate_stops_and_times cfg.geo cfg.dist pts cfg.stop_dist = none) →
        (routeBody cfg idx name points st).1 = st)
    cases hgen : generate_stops_and_times cfg.geo cfg.dist points cfg.stop_dist with
    | none =>
      rw [routeBody_gen_none cfg idx name points st hgen]
      exact ⟨rfl, rfl, rfl, fun _ => rfl⟩
    | some interp =>
      cases hct : calculate_travel_times cfg.geo
          (internRoute interp st).2.2 cfg.speed_kmh with
      | none =>
        rw [routeBody_ct_none cfg idx name points st interp hgen hct]
        obtain ⟨p1, p2, p3⟩ := internRoute_preserves interp st
        refine ⟨p1, p3, p2, ?_⟩
        rintro (h | ⟨pts, hpts, hnone⟩)
        · exact Option.noConfusion h
        · rw [Option.some.inj hpts] at hgen
          rw [hgen] at hnone
          exact Option.noConfusion hnone
      | some ts =>
        rw [routeBody_success cfg idx name points st interp ts hgen hct] at herr
        exact absurd herr (by simp)

/-- A configuration with speed 0 km/h: `calculate_travel_times` raises
`ZeroDivisionError` on every route, but only after interning its stops. -/
def cfgZero : Config := ⟨dEx, dEx, 0, 2, 600⟩

/-- Claim C4, counterexample: the claim says a failed route leaves every
downstream aggregate — including the stop registry and stops list —
unchanged.  With speed 0, this two-point route fails inside
`calculate_travel_times` (a caught per-route error), yet its two freshly
interned stops remain committed in `all_stops`. -/
theorem C4_counterexample :
    (processRouteGpx cfgZero 1 "r" (some [(0, 0), (0, 1)]) initState).2 = true ∧
    (processRouteGpx cfgZero 1 "r" (some [(0, 0), (0, 1)]) initState).1.all_stops ≠
      initState.all_stops := by
  norm_num [processRouteGpx, routeBody, generate_stops_and_times, geodesic_length,
    line_length, dEx, cfgZero, List.range_succ, interpolate, interp_seg, internRoute,
    internStop, findKey, stopKey, round5, calculate_travel_times, initState,
    List.cons_ne_nil]

/-- Claim C4, witness for the amended theorem: a parse failure leaves the
whole state unchanged. -/
theorem C4_witness :
    (processRouteGpx cfgEx 1 "broken" none initState).2 = true ∧
    ((processRouteGpx cfgEx 1 "broken" none initState).1.routes_data =
        initState.routes_data ∧
      (processRouteGpx cfgEx 1 "broken" none initState).1.all_stop_times =
        initState.all_stop_times ∧
      (processRouteGpx cfgEx 1 "broken" none initState).1.all_shapes =
        initState.all_shapes ∧
      ((none = (none : Option (List Point)) ∨ ∃ points, (none : Option (List Point)) = some points ∧
          generate_stops_and_times cfgEx.geo cfgEx.dist points cfgEx.stop_dist = none) →
        (processRouteGpx cfgEx 1 "broken" none initState).1 = initState)) :=
  ⟨rfl, C4_route_failure_isolation cfgEx 1 "broken" none initState rfl⟩

end Sikka
